import Mathlib

/-!
Shallow embedding of `amtt/parser.py`: a streaming XML validator for a fixed
four-level document grammar (betfair > event > subevent > selection).  The
embedding models the typed attribute coercers (`Parser.String`, `Parser.Int`,
`Parser.Money`, `Parser.Date`, `Parser.Time`), the per-depth tag schemas
(`Tag.betfair`, `Tag.event`, `Tag.subEvent`, `Tag.selection`), attribute-set
verification (`Tag._verify_names`), tag opening (`Tag.open`), and the
depth-tracking SAX content handler (`ExpatContentHandler`), together with the
structured error model (`UnExpectedTag`, `BrokenAttributes`,
`AttributeTypeError`) and Python-level failures (assertion errors, list index
errors) that the code can raise.
-/

/-- Source location as read from the SAX locator (line, column) at the moment
a `Problem` is raised. -/
structure Loc where
  line : Nat
  column : Nat
deriving DecidableEq, Repr

/-- The five attribute coercer kinds of class `Parser` in `parser.py`:
`Parser.String`, `Parser.Int`, `Parser.Money`, `Parser.Date`, `Parser.Time`. -/
inductive AttrType
  | string
  | int
  | money
  | date
  | time
deriving DecidableEq, Repr

/-- Python class name of a coercer (`self.__class__.__name__`), used in the
`AttributeTypeError` message. -/
def typeNameOf : AttrType → String
  | .string => "String"
  | .int => "Int"
  | .money => "Money"
  | .date => "Date"
  | .time => "Time"

/-- One schema entry: an attribute name bound to a coercer
(`Parser.string(name)`, `Parser.int(name)`, ...). -/
structure AttrScheme where
  name : String
  ty : AttrType
deriving DecidableEq, Repr

/-- Value of a `decimal.Decimal`: a finite value (represented by its exact
rational numeric value), a signed infinity, or a NaN. -/
inductive DecVal
  | finite (q : Rat)
  | inf (neg : Bool)
  | nan
deriving DecidableEq, Repr

/-- A decoded attribute value as produced by the coercers. -/
inductive Value
  | str (s : String)
  | int (i : Int)
  | dec (d : DecVal)
  | date (y m d : Nat)
  | time (h mi : Nat)
deriving DecidableEq, Repr

/-! ### Character and digit helpers -/

def isDigitC (c : Char) : Bool := '0' ≤ c && c ≤ '9'

def digitVal (c : Char) : Nat := c.toNat - '0'.toNat

def digitsToNat (l : List Char) : Nat := l.foldl (fun a c => a * 10 + digitVal c) 0

/-- The ASCII whitespace characters stripped by Python's `str.strip()` and by
`int(str)` / `Decimal(str)` around a numeric literal. -/
def isPySpace (c : Char) : Bool :=
  c = ' ' || c = '\t' || c = '\n' || c = '\r' || c = '\x0b' || c = '\x0c'

/-- Strip leading and trailing whitespace (Python `str.strip()`). -/
def stripList (l : List Char) : List Char :=
  ((l.dropWhile isPySpace).reverse.dropWhile isPySpace).reverse

/-! ### `Parser.Int._parse`: Python `int(value)` on a base-10 string -/

/-- Digits of a Python integer literal after the first digit: further digits
with single underscores allowed between digits. -/
def intDigitsAux (acc : Nat) : List Char → Option Nat
  | [] => some acc
  | '_' :: c :: rest => if isDigitC c then intDigitsAux (acc * 10 + digitVal c) rest else none
  | '_' :: [] => none
  | c :: rest => if isDigitC c then intDigitsAux (acc * 10 + digitVal c) rest else none

/-- A nonempty run of base-10 digits with optional single grouping
underscores, consuming the whole input. -/
def intDigits : List Char → Option Nat
  | [] => none
  | c :: rest => if isDigitC c then intDigitsAux (digitVal c) rest else none

/-- Embedding of Python `int(value)` for a string argument (base 10):
optional surrounding whitespace, optional sign, digits with grouping
underscores.  Returns `none` where Python raises `ValueError`. -/
def pyInt (s : String) : Option Int :=
  match stripList s.data with
  | '+' :: rest => (intDigits rest).map Int.ofNat
  | '-' :: rest => (intDigits rest).map (fun n => -(n : Int))
  | rest => (intDigits rest).map Int.ofNat

/-! ### `Parser.Money._parse`: `decimal.Decimal(value)` on a string

Python's `Decimal` constructor strips surrounding whitespace and removes
underscores throughout, then parses the decimal numeric-string grammar:
`[sign] (digits [. digits] | . digits) [ (e|E) [sign] digits ]`, or the
special values `Infinity`/`Inf`, `NaN`/`sNaN` (case-insensitive, NaN may
carry a diagnostic digit payload).  It raises `InvalidOperation` otherwise. -/

/-- Numeric value of a finite decimal literal: sign, integer-part digits,
fraction-part digits, and a decimal exponent. -/
def decValOf (neg : Bool) (ip fp : List Char) (ex : Int) : DecVal :=
  let mant : Nat := digitsToNat (ip ++ fp)
  let e : Int := ex - fp.length
  let mag : Rat :=
    if 0 ≤ e then ((mant * 10 ^ e.toNat : Nat) : Rat)
    else (mant : Rat) / ((10 ^ (-e).toNat : Nat) : Rat)
  .finite (if neg then -mag else mag)

/-- Exponent digits of a decimal literal (must be nonempty, all digits). -/
def decExpDigits (neg : Bool) (ip fp : List Char) (ds : List Char) (eneg : Bool) : Option DecVal :=
  if ds ≠ [] && ds.all isDigitC then
    let e : Int := digitsToNat ds
    some (decValOf neg ip fp (if eneg then -e else e))
  else none

/-- Optional exponent part `(e|E) [sign] digits` at the end of a decimal
literal. -/
def decExpPart (neg : Bool) (ip fp : List Char) : List Char → Option DecVal
  | [] => some (decValOf neg ip fp 0)
  | e :: rest =>
    if e = 'e' || e = 'E' then
      match rest with
      | '+' :: ds => decExpDigits neg ip fp ds false
      | '-' :: ds => decExpDigits neg ip fp ds true
      | ds => decExpDigits neg ip fp ds false
    else none

/-- Body of a decimal numeric string after the optional sign. -/
def decBody (neg : Bool) (cs : List Char) : Option DecVal :=
  let low := cs.map Char.toLower
  if low = "inf".data || low = "infinity".data then some (.inf neg)
  else if low.take 3 = "nan".data && (low.drop 3).all isDigitC then some .nan
  else if low.take 4 = "snan".data && (low.drop 4).all isDigitC then some .nan
  else
    match cs.span isDigitC with
    | (ip, '.' :: r2) =>
      let (fp, r3) := r2.span isDigitC
      if ip.isEmpty && fp.isEmpty then none
      else decExpPart neg ip fp r3
    | (ip, r1) => if ip.isEmpty then none else decExpPart neg ip [] r1

/-- Embedding of `decimal.Decimal(value)` for a string argument.  Returns
`none` where Python raises `decimal.InvalidOperation`. -/
def parseDecimal (s : String) : Option DecVal :=
  match (stripList s.data).filter (fun c => c ≠ '_') with
  | '+' :: rest => decBody false rest
  | '-' :: rest => decBody true rest
  | rest => decBody false rest

/-! ### `Parser.Date._parse` and `Parser.Time._parse`

`datetime.strptime(value, "%d/%m/%Y").date()` and
`datetime.strptime(value, "%H:%M").time()`.  CPython compiles each format
directive to a regular expression fragment and requires the whole input to be
consumed: `%d` is `3[01]|[12]\d|0[1-9]|[1-9]`, `%m` is `1[0-2]|0[1-9]|[1-9]`,
`%Y` is four digits, `%H` is `2[0-3]|[0-1]\d|\d`, `%M` is `[0-5]\d|\d`; the
resulting day must be valid for the month (else `ValueError`).  The matchers
below reproduce those fragments (a two-digit alternative that succeeds leaves
a digit as the next character, so the one-digit fallback could never rescue a
failed literal match: plain greedy matching is equivalent to regex
backtracking here). -/

/-- Match the `%d` directive (day 1..31). -/
def matchDay : List Char → Option (Nat × List Char)
  | [] => none
  | c :: r =>
    if c = '3' then
      match r with
      | c2 :: r2 => if c2 = '0' || c2 = '1' then some (30 + digitVal c2, r2) else some (3, r)
      | [] => some (3, r)
    else if c = '1' || c = '2' then
      match r with
      | c2 :: r2 => if isDigitC c2 then some (10 * digitVal c + digitVal c2, r2)
                    else some (digitVal c, r)
      | [] => some (digitVal c, r)
    else if c = '0' then
      match r with
      | c2 :: r2 => if c2 ≠ '0' && isDigitC c2 then some (digitVal c2, r2) else none
      | [] => none
    else if isDigitC c then some (digitVal c, r)
    else none

/-- Match the `%m` directive (month 1..12). -/
def matchMonth : List Char → Option (Nat × List Char)
  | [] => none
  | c :: r =>
    if c = '1' then
      match r with
      | c2 :: r2 => if c2 = '0' || c2 = '1' || c2 = '2' then some (10 + digitVal c2, r2)
                    else some (1, r)
      | [] => some (1, r)
    else if c = '0' then
      match r with
      | c2 :: r2 => if c2 ≠ '0' && isDigitC c2 then some (digitVal c2, r2) else none
      | [] => none
    else if isDigitC c then some (digitVal c, r)
    else none

/-- Match the `%Y` directive (exactly four digits). -/
def matchYear : List Char → Option (Nat × List Char)
  | a :: b :: c :: d :: r =>
    if isDigitC a && isDigitC b && isDigitC c && isDigitC d then
      some (digitsToNat [a, b, c, d], r)
    else none
  | _ => none

/-- Match the `%H` directive (hour 0..23). -/
def matchHour : List Char → Option (Nat × List Char)
  | [] => none
  | c :: r =>
    if c = '2' then
      match r with
      | c2 :: r2 => if '0' ≤ c2 && c2 ≤ '3' then some (20 + digitVal c2, r2) else some (2, r)
      | [] => some (2, r)
    else if c = '0' || c = '1' then
      match r with
      | c2 :: r2 => if isDigitC c2 then some (10 * digitVal c + digitVal c2, r2)
                    else some (digitVal c, r)
      | [] => some (digitVal c, r)
    else if isDigitC c then some (digitVal c, r)
    else none

/-- Match the `%M` directive (minute 0..59). -/
def matchMinute : List Char → Option (Nat × List Char)
  | [] => none
  | c :: r =>
    if '0' ≤ c && c ≤ '5' then
      match r with
      | c2 :: r2 => if isDigitC c2 then some (10 * digitVal c + digitVal c2, r2)
                    else some (digitVal c, r)
      | [] => some (digitVal c, r)
    else if isDigitC c then some (digitVal c, r)
    else none

def isLeapYear (y : Nat) : Bool := y % 4 = 0 && (y % 100 ≠ 0 || y % 400 = 0)

def daysInMonth (y m : Nat) : Nat :=
  if m = 2 then (if isLeapYear y then 29 else 28)
  else if m = 4 || m = 6 || m = 9 || m = 11 then 30
  else 31

/-- Embedding of `datetime.strptime(value, "%d/%m/%Y").date()`: returns
`(year, month, day)`, or `none` where Python raises `ValueError` (pattern
mismatch, trailing input, day out of range for the month, year 0). -/
def parseDateDMY (s : String) : Option (Nat × Nat × Nat) := do
  let (d, r1) ← matchDay s.data
  match r1 with
  | '/' :: r2 => do
    let (m, r3) ← matchMonth r2
    match r3 with
    | '/' :: r4 => do
      let (y, r5) ← matchYear r4
      if r5 = [] && 1 ≤ y && d ≤ daysInMonth y m then some (y, m, d) else none
    | _ => none
  | _ => none

/-- Embedding of `datetime.strptime(value, "%H:%M").time()`: returns
`(hour, minute)` or `none` where Python raises `ValueError`. -/
def parseTimeHM (s : String) : Option (Nat × Nat) := do
  let (h, r1) ← matchHour s.data
  match r1 with
  | ':' :: r2 => do
    let (mi, r3) ← matchMinute r2
    if r3 = [] then some (h, mi) else none
  | _ => none

/-! ### Coercion dispatch: the `_parse` methods of the five coercer classes -/

/-- The `_parse` method of the coercer class for `ty`: `Parser.String._parse`
is the identity, `Parser.Int._parse` is `int(value)`, `Parser.Money._parse`
is `decimal.Decimal(value)`, `Parser.Date._parse` / `Parser.Time._parse` use
`datetime.strptime`.  `none` models the `ValueError` /
`decimal.InvalidOperation` that `Parser.Attribute.parse` catches. -/
def parseRaw : AttrType → String → Option Value
  | .string, v => some (.str v)
  | .int, v => (pyInt v).map .int
  | .money, v => (parseDecimal v).map .dec
  | .date, v => (parseDateDMY v).map (fun p => .date p.1 p.2.1 p.2.2)
  | .time, v => (parseTimeHM v).map (fun p => .time p.1 p.2)

/-! ### Attribute maps

`xml.sax.xmlreader.AttributesImpl` wraps a dict from attribute name to raw
string value; XML well-formedness guarantees distinct keys.  We model it as an
association list; `len(attrs)`, `name in attrs`, `attrs[name]` and
`attrs.getNames()` become `List.length`, `containsKey`, `getAttr` and
`attrKeys`. -/

def Attrs := List (String × String)

/-- Dict lookup `attrs[name]` (`none` models `KeyError`). -/
def getAttr : List (String × String) → String → Option String
  | [], _ => none
  | (k, v) :: r, n => if k = n then some v else getAttr r n

/-- Dict membership `name in attrs`. -/
def containsKey (attrs : List (String × String)) (n : String) : Bool :=
  (getAttr attrs n).isSome

/-- `attrs.getNames()`: the list of attribute names. -/
def attrKeys (attrs : List (String × String)) : List String := attrs.map Prod.fst

/-! ### The error model

`Problem` subclasses (`UnExpectedTag`, `BrokenAttributes`,
`AttributeTypeError`) capture the locator position when raised; the remaining
constructors model Python-level exceptions the handler can raise: `assert`
failures (`AssertionError`), out-of-range list indexing (`IndexError`), dict
lookup failure (`KeyError`), and calling a method on `None`
(`AttributeError`). -/
inductive PError
  | unexpectedTag (loc : Loc) (name : String) (expected : Option String)
  | brokenAttributes (loc : Loc) (unexpected missed : List String)
  | attributeTypeError (loc : Loc) (name tyName value : String)
  | keyError
  | assertionError
  | indexError
  | noneAttributeError
deriving DecidableEq, Repr

/-- `Parser.Attribute.parse`: run the coercer's `_parse`, catching
`ValueError` / `decimal.InvalidOperation` and re-raising as
`AttributeTypeError(locator, name, class name, value)`. -/
def attrParse (loc : Loc) (a : AttrScheme) (v : String) : Except PError Value :=
  match parseRaw a.ty v with
  | some x => .ok x
  | none => .error (.attributeTypeError loc a.name (typeNameOf a.ty) v)

/-! ### Tag schemas (`Tag.betfair`, `Tag.event`, `Tag.subEvent`,
`Tag.selection`) -/

def betfairScheme : List AttrScheme := [⟨"sport", .string⟩]

def eventScheme : List AttrScheme := [⟨"name", .string⟩, ⟨"date", .date⟩]

def subEventScheme : List AttrScheme :=
  [⟨"id", .int⟩, ⟨"title", .string⟩, ⟨"date", .date⟩, ⟨"time", .time⟩,
   ⟨"TotalAmountMatched", .int⟩]

/-- `Tag.selection`'s scheme: `id`, `name`, then the twelve money attributes
generated by the nested loops `for suffix in 1..3: for p in [back, lay]:
for medium in [p, s]`. -/
def selectionScheme : List AttrScheme :=
  [⟨"id", .int⟩, ⟨"name", .string⟩] ++
    (["1", "2", "3"].flatMap fun sfx =>
      ["back", "lay"].flatMap fun side =>
        ["p", "s"].map fun med => ⟨side ++ med ++ sfx, .money⟩)

/-- The four tag kinds registered in `TAG_SCHEME`. -/
inductive TagKind
  | betfair
  | event
  | subEvent
  | selection
deriving DecidableEq, Repr

def TagKind.scheme : TagKind → List AttrScheme
  | .betfair => betfairScheme
  | .event => eventScheme
  | .subEvent => subEventScheme
  | .selection => selectionScheme

/-- One sink (`UserHandler`) callback invocation with its positional
arguments. -/
inductive SinkCall
  | startBetfair (args : List Value)
  | startEvent (args : List Value)
  | startSubEvent (args : List Value)
  | selection (args : List Value)
  | endBetfair
  | endEvent
  | endSubEvent
deriving DecidableEq, Repr

/-- The open callback each tag kind's `Tag` was constructed with. -/
def TagKind.openCall : TagKind → List Value → SinkCall
  | .betfair => .startBetfair
  | .event => .startEvent
  | .subEvent => .startSubEvent
  | .selection => .selection

/-- The close callback: `data_handler.endBetfair` / `endEvent` /
`endSubEvent`; for `selection` the `Tag` is constructed with `lambda: None`,
which invokes no sink callback at all. -/
def TagKind.closeCall : TagKind → Option SinkCall
  | .betfair => some .endBetfair
  | .event => some .endEvent
  | .subEvent => some .endSubEvent
  | .selection => none

/-! ### `Tag._broken_names_report`, `Tag._verify_names`, `Tag.open` -/

/-- `actual.difference(expected)` of `Tag._broken_names_report`: provided
attribute names that are not declared (as a list; Python renders the set). -/
def unexpectedOf (scheme : List AttrScheme) (attrs : List (String × String)) : List String :=
  (attrKeys attrs).filter (fun n => !(scheme.map AttrScheme.name).contains n)

/-- `expected.difference(actual)` of `Tag._broken_names_report`: declared
attribute names that were not provided. -/
def missedOf (scheme : List AttrScheme) (attrs : List (String × String)) : List String :=
  (scheme.map AttrScheme.name).filter (fun n => !containsKey attrs n)

/-- The `BrokenAttributes` raised by `Tag._broken_names_report`. -/
def brokenReport (loc : Loc) (scheme : List AttrScheme)
    (attrs : List (String × String)) : PError :=
  .brokenAttributes loc (unexpectedOf scheme attrs) (missedOf scheme attrs)

/-- `Tag._verify_names`: raise the broken-attributes report if the lengths
differ, or on the first declared name missing from the provided map. -/
def verifyNames (loc : Loc) (scheme : List AttrScheme)
    (attrs : List (String × String)) : Except PError Unit :=
  if scheme.length ≠ attrs.length then .error (brokenReport loc scheme attrs)
  else
    match scheme.find? (fun a => !containsKey attrs a.name) with
    | some _ => .error (brokenReport loc scheme attrs)
    | none => .ok ()

/-- The loop of `Tag.open`: for each declared attribute in schema order,
fetch the raw value (`attrs[ascheme.name]`) and run `ascheme.parse`,
collecting the results; the first failure propagates. -/
def parseAll (loc : Loc) : List AttrScheme → List (String × String) → Except PError (List Value)
  | [], _ => .ok []
  | a :: rest, attrs =>
    match getAttr attrs a.name with
    | none => .error .keyError
    | some v => do
      let x ← attrParse loc a v
      let xs ← parseAll loc rest attrs
      .ok (x :: xs)

/-- `Tag.open` up to the sink invocation: verify the attribute name set, then
decode all attributes in schema order; the caller passes the result list to
the tag's open callback. -/
def tagOpen (loc : Loc) (scheme : List AttrScheme)
    (attrs : List (String × String)) : Except PError (List Value) := do
  verifyNames loc scheme attrs
  parseAll loc scheme attrs

/-! ### `ExpatContentHandler`: the depth-tracking state machine -/

/-- `TAG_EXPECTED = [None, 'betfair', 'event', 'subevent', 'selection']`. -/
def TAG_EXPECTED : List (Option String) :=
  [none, some "betfair", some "event", some "subevent", some "selection"]

/-- `TAG_SCHEME = [None, Tag.betfair(), Tag.event(), Tag.subEvent(),
Tag.selection()]` (the constructed `Tag` objects of `self._parser`). -/
def TAG_SCHEME : List (Option TagKind) :=
  [none, some .betfair, some .event, some .subEvent, some .selection]

/-- Python list indexing `l[i]`, including negative indices;
`none` models `IndexError`. -/
def pyGet (l : List α) (i : Int) : Option α :=
  if 0 ≤ i then l.get? i.toNat
  else if (-i).toNat ≤ l.length then l.get? (l.length - (-i).toNat) else none

/-- Handler state: the `_mode` member (current depth marker). -/
structure HState where
  mode : Int
deriving DecidableEq, Repr

/-- `ExpatContentHandler.startDocument`: `assert mode == MODE_ROOT`, then set
`mode = MODE_ROOT + 1`. -/
def startDocument (st : HState) : Except PError HState :=
  if st.mode = 0 then .ok ⟨1⟩ else .error .assertionError

/-- `ExpatContentHandler.endDocument`: `assert mode == MODE_ROOT + 1`, then
reset `mode = MODE_ROOT`. -/
def endDocument (st : HState) : Except PError HState :=
  if st.mode = 1 then .ok ⟨0⟩ else .error .assertionError

/-- `ExpatContentHandler.startElement`: look up `TAG_EXPECTED[mode]`, raise
`UnExpectedTag` on name mismatch, run `self._parser[mode].open(attrs)` (whose
result list is splatted into the tag's open callback), then increment
`mode`. -/
def startElement (loc : Loc) (st : HState) (name : String)
    (attrs : List (String × String)) : Except PError (HState × List SinkCall) :=
  match pyGet TAG_EXPECTED st.mode with
  | none => .error .indexError
  | some expected =>
    if expected = some name then
      match pyGet TAG_SCHEME st.mode with
      | none => .error .indexError
      | some none => .error .noneAttributeError
      | some (some k) => do
        let args ← tagOpen loc k.scheme attrs
        .ok (⟨st.mode + 1⟩, [k.openCall args])
    else .error (.unexpectedTag loc name expected)

/-- `ExpatContentHandler.endElement`: `assert TAG_EXPECTED[mode-1] == name`,
decrement `mode`, then call `self._parser[mode].close()`. -/
def endElement (st : HState) (name : String) : Except PError (HState × List SinkCall) :=
  match pyGet TAG_EXPECTED (st.mode - 1) with
  | none => .error .indexError
  | some e =>
    if e = some name then
      match pyGet TAG_SCHEME (st.mode - 1) with
      | none => .error .indexError
      | some none => .error .noneAttributeError
      | some (some k) => .ok (⟨st.mode - 1⟩, k.closeCall.toList)
    else .error .assertionError

/-- One structural parse event pushed by the SAX reader, carrying the locator
position where relevant. -/
inductive XmlEvent
  | startDoc
  | startElem (loc : Loc) (name : String) (attrs : List (String × String))
  | endElem (name : String)
  | endDoc
deriving DecidableEq, Repr

/-- Dispatch one parse event to the handler, returning the new state and the
sink callbacks it invoked. -/
def step (st : HState) : XmlEvent → Except PError (HState × List SinkCall)
  | .startDoc => (startDocument st).map (fun st2 => (st2, []))
  | .startElem loc name attrs => startElement loc st name attrs
  | .endElem name => endElement st name
  | .endDoc => (endDocument st).map (fun st2 => (st2, []))

/-- Result of feeding a sequence of events: the sink callbacks invoked (in
order), the handler state reached, and the first error raised, if any;
processing stops at the first error and a failing event leaves the state it
received unchanged. -/
structure RunResult where
  trace : List SinkCall
  state : HState
  err : Option PError
deriving DecidableEq, Repr

/-- Feed events one by one until the list is exhausted or an error is
raised. -/
def runAcc (st : HState) : List XmlEvent → RunResult
  | [] => ⟨[], st, none⟩
  | e :: rest =>
    match step st e with
    | .error p => ⟨[], st, some p⟩
    | .ok (st2, calls) =>
      let r := runAcc st2 rest
      ⟨calls ++ r.trace, r.state, r.err⟩

/-! ### Well-formed documents

A document of the fixed grammar of the spec: a `betfair` root holding
events, sub-events and leaf selections, each node carrying its raw attribute
map.  `docEvents` is the structural event sequence the SAX reader produces
for it; `conf` states that every node's attribute map has exactly the
declared names (with distinct keys, as XML guarantees) and every value
decodes under its declared coercer. -/

structure SelectionN where
  attrs : List (String × String)

structure SubEventN where
  attrs : List (String × String)
  sels : List SelectionN

structure EventN where
  attrs : List (String × String)
  subs : List SubEventN

structure BetfairN where
  attrs : List (String × String)
  evs : List EventN

/-- Locator position used for generated document events (never consulted on
the success path). -/
def loc0 : Loc := ⟨1, 0⟩

def SelectionN.events (s : SelectionN) : List XmlEvent :=
  [.startElem loc0 "selection" s.attrs, .endElem "selection"]

def SubEventN.events (se : SubEventN) : List XmlEvent :=
  .startElem loc0 "subevent" se.attrs ::
    ((se.sels.flatMap SelectionN.events) ++ [.endElem "subevent"])

def EventN.events (e : EventN) : List XmlEvent :=
  .startElem loc0 "event" e.attrs ::
    ((e.subs.flatMap SubEventN.events) ++ [.endElem "event"])

def BetfairN.events (b : BetfairN) : List XmlEvent :=
  .startElem loc0 "betfair" b.attrs ::
    ((b.evs.flatMap EventN.events) ++ [.endElem "betfair"])

/-- The full structural event sequence of a document. -/
def BetfairN.docEvents (b : BetfairN) : List XmlEvent :=
  .startDoc :: (b.events ++ [.endDoc])

/-- One attribute decodes: it is present and its raw value parses under its
declared coercer. -/
def decodes (a : AttrScheme) (attrs : List (String × String)) : Bool :=
  match getAttr attrs a.name with
  | some v => (parseRaw a.ty v).isSome
  | none => false

/-- The attribute map conforms to the schema: distinct keys, exactly the
declared names, and every value decodable. -/
def conformsAttrs (scheme : List AttrScheme) (attrs : List (String × String)) : Bool :=
  decide (attrKeys attrs).Nodup && decide (attrs.length = scheme.length) &&
    scheme.all (fun a => decodes a attrs)

def SelectionN.conf (s : SelectionN) : Bool := conformsAttrs selectionScheme s.attrs

def SubEventN.conf (se : SubEventN) : Bool :=
  conformsAttrs subEventScheme se.attrs && se.sels.all SelectionN.conf

def EventN.conf (e : EventN) : Bool :=
  conformsAttrs eventScheme e.attrs && e.subs.all SubEventN.conf

def BetfairN.conf (b : BetfairN) : Bool :=
  conformsAttrs betfairScheme b.attrs && b.evs.all EventN.conf

/-- The decoded positional arguments of an open callback, as the spec states
them: the declared attributes in schema declaration order, each coerced to
its declared type. -/
def decodeArgs (scheme : List AttrScheme) (attrs : List (String × String)) : List Value :=
  scheme.map (fun a => (parseRaw a.ty ((getAttr attrs a.name).getD "")).getD (.str ""))

/-- The sink callback sequence the spec prescribes for a document, in
document order: one open callback per element start (arguments in schema
order), one close callback per element end of `betfair`, `event` and
`subevent`; a `selection` close invokes no sink callback. -/
def SelectionN.expTrace (s : SelectionN) : List SinkCall :=
  [.selection (decodeArgs selectionScheme s.attrs)]

def SubEventN.expTrace (se : SubEventN) : List SinkCall :=
  .startSubEvent (decodeArgs subEventScheme se.attrs) ::
    ((se.sels.flatMap SelectionN.expTrace) ++ [.endSubEvent])

def EventN.expTrace (e : EventN) : List SinkCall :=
  .startEvent (decodeArgs eventScheme e.attrs) ::
    ((e.subs.flatMap SubEventN.expTrace) ++ [.endEvent])

def BetfairN.expTrace (b : BetfairN) : List SinkCall :=
  .startBetfair (decodeArgs betfairScheme b.attrs) ::
    ((b.evs.flatMap EventN.expTrace) ++ [.endBetfair])

/-- Number of element open/close events (`startElement`/`endElement` calls)
in an event sequence. -/
def countElemEvents (evs : List XmlEvent) : Nat :=
  (evs.filter (fun e =>
    match e with
    | .startElem _ _ _ => true
    | .endElem _ => true
    | _ => false)).length

/-! ### Spec-side decimal addition and concrete documents used as witnesses -/

/-- Modelled from the spec: exact addition of two finite decimal values, the
operation used by the spec's money-exactness check (the source itself defines
no decimal arithmetic; `decimal.Decimal` addition of finite values is exact). -/
def decAddFin : DecVal → DecVal → Option DecVal
  | .finite a, .finite b => some (.finite (a + b))
  | _, _ => none

/-- The twelve money attribute names of a `selection`, in schema order. -/
def moneyNames : List String :=
  ["backp1", "backs1", "layp1", "lays1", "backp2", "backs2", "layp2", "lays2",
   "backp3", "backs3", "layp3", "lays3"]

/-- A conforming `selection` attribute map. -/
def selAttrsW : List (String × String) :=
  [("id", "1"), ("name", "S")] ++ moneyNames.map (fun n => (n, "1.5"))

/-- A conforming `subevent` attribute map (note the capital T of
`TotalAmountMatched`). -/
def subAttrsW : List (String × String) :=
  [("id", "1"), ("title", "T"), ("date", "13/09/2013"), ("time", "12:43"),
   ("TotalAmountMatched", "100")]

/-- A concrete well-formed document with one node at every level. -/
def docW : BetfairN :=
  ⟨[("sport", "Soccer")],
   [⟨[("name", "X"), ("date", "13/09/2013")],
     [⟨subAttrsW, [⟨selAttrsW⟩]⟩]⟩]⟩

/-- The event prefix that opens one element of every level of `docW` without
closing any: it drives the handler to mode 5 (inside a `selection`). -/
def openPrefixW : List XmlEvent :=
  [.startDoc,
   .startElem loc0 "betfair" [("sport", "Soccer")],
   .startElem loc0 "event" [("name", "X"), ("date", "13/09/2013")],
   .startElem loc0 "subevent" subAttrsW,
   .startElem loc0 "selection" selAttrsW]

/-- A `selection` attribute map whose first money value is the string NaN and
whose other money values are the string Infinity. -/
def selAttrsNaN : List (String × String) :=
  [("id", "1"), ("name", "S"), ("backp1", "NaN")] ++
    (moneyNames.drop 1).map (fun n => (n, "Infinity"))

/-- Decidable equality for handler results. -/
instance {e a : Type} [DecidableEq e] [DecidableEq a] : DecidableEq (Except e a) := fun x y =>
  match x, y with
  | .ok v, .ok w =>
    if h : v = w then isTrue (by rw [h]) else isFalse (by intro hc; cases hc; exact h rfl)
  | .error v, .error w =>
    if h : v = w then isTrue (by rw [h]) else isFalse (by intro hc; cases hc; exact h rfl)
  | .ok _, .error _ => isFalse (by intro hc; cases hc)
  | .error _, .ok _ => isFalse (by intro hc; cases hc)

/-! ### Infrastructure lemmas -/

theorem getAttr_isSome_iff {attrs : List (String × String)} {n : String} :
    (getAttr attrs n).isSome = true ↔ n ∈ attrKeys attrs := by
  induction attrs with
  | nil => simp [getAttr, attrKeys]
  | cons p r ih =>
    obtain ⟨k, v⟩ := p
    by_cases hk : k = n
    · subst hk
      simp [getAttr, attrKeys]
    · simp only [getAttr, attrKeys, List.map_cons, List.mem_cons, if_neg hk]
      rw [ih]
      constructor
      · exact fun h => Or.inr h
      · rintro (h | h)
        · exact absurd h.symm hk
        · exact h

theorem containsKey_iff {attrs : List (String × String)} {n : String} :
    containsKey attrs n = true ↔ n ∈ attrKeys attrs := by
  rw [containsKey, getAttr_isSome_iff]

theorem conformsAttrs_parts {scheme : List AttrScheme} {attrs : List (String × String)}
    (h : conformsAttrs scheme attrs = true) :
    (attrKeys attrs).Nodup ∧ attrs.length = scheme.length ∧
      ∀ a ∈ scheme, decodes a attrs = true := by
  unfold conformsAttrs at h
  simp only [Bool.and_eq_true, decide_eq_true_eq, List.all_eq_true] at h
  exact ⟨h.1.1, h.1.2, h.2⟩

theorem verifyNames_ok_of_conf {loc : Loc} {scheme : List AttrScheme}
    {attrs : List (String × String)} (h : conformsAttrs scheme attrs = true) :
    verifyNames loc scheme attrs = .ok () := by
  obtain ⟨-, hlen, hdec⟩ := conformsAttrs_parts h
  unfold verifyNames
  rw [if_neg (fun hne => hne hlen.symm)]
  have hfind : scheme.find? (fun a => !containsKey attrs a.name) = none := by
    apply List.find?_eq_none.mpr
    intro a ha
    have hd := hdec a ha
    unfold decodes at hd
    cases hg : getAttr attrs a.name with
    | none => rw [hg] at hd; exact absurd hd (by simp)
    | some v => simp [containsKey, hg]
  rw [hfind]

theorem parseAll_conf {loc : Loc} {attrs : List (String × String)} :
    ∀ {scheme : List AttrScheme}, (∀ a ∈ scheme, decodes a attrs = true) →
      parseAll loc scheme attrs = .ok (decodeArgs scheme attrs) := by
  intro scheme
  induction scheme with
  | nil => intro _; rfl
  | cons a rest ih =>
    intro h
    have ha := h a (List.mem_cons_self a rest)
    unfold decodes at ha
    cases hg : getAttr attrs a.name with
    | none => rw [hg] at ha; exact absurd ha (by simp)
    | some v =>
      have ha2 : (parseRaw a.ty v).isSome = true := by rw [hg] at ha; exact ha
      cases hp : parseRaw a.ty v with
      | none => rw [hp] at ha2; exact absurd ha2 (by simp)
      | some x =>
        have hrest := ih (fun b hb => h b (List.mem_cons_of_mem a hb))
        simp only [parseAll, hg, attrParse, hp, hrest, decodeArgs, List.map_cons,
          Option.getD_some]
        rfl

theorem tagOpen_conf {loc : Loc} {scheme : List AttrScheme} {attrs : List (String × String)}
    (h : conformsAttrs scheme attrs = true) :
    tagOpen loc scheme attrs = .ok (decodeArgs scheme attrs) := by
  unfold tagOpen
  rw [verifyNames_ok_of_conf h]
  simpa using parseAll_conf (conformsAttrs_parts h).2.2

theorem runAcc_cons_ok {st st2 : HState} {e : XmlEvent} {calls : List SinkCall}
    (rest : List XmlEvent) (h : step st e = .ok (st2, calls)) :
    runAcc st (e :: rest) =
      ⟨calls ++ (runAcc st2 rest).trace, (runAcc st2 rest).state, (runAcc st2 rest).err⟩ := by
  simp [runAcc, h]

theorem runAcc_append_ok {st st2 : HState} {xs : List XmlEvent} {tr : List SinkCall}
    (ys : List XmlEvent) (h : runAcc st xs = ⟨tr, st2, none⟩) :
    runAcc st (xs ++ ys) =
      ⟨tr ++ (runAcc st2 ys).trace, (runAcc st2 ys).state, (runAcc st2 ys).err⟩ := by
  induction xs generalizing st tr with
  | nil =>
    simp only [runAcc] at h
    cases h
    simp
  | cons e xs ih =>
    cases hs : step st e with
    | error p =>
      rw [show runAcc st (e :: xs) = ⟨[], st, some p⟩ by simp [runAcc, hs]] at h
      cases h
    | ok pr =>
      obtain ⟨st1, calls⟩ := pr
      rw [runAcc_cons_ok xs hs] at h
      have h1 : calls ++ (runAcc st1 xs).trace = tr := congrArg RunResult.trace h
      have h2 : (runAcc st1 xs).state = st2 := congrArg RunResult.state h
      have h3 : (runAcc st1 xs).err = none := congrArg RunResult.err h
      have heq : runAcc st1 xs = ⟨(runAcc st1 xs).trace, st2, none⟩ := by
        rw [← h2, ← h3]
      rw [List.cons_append, runAcc_cons_ok (xs ++ ys) hs, ih heq, ← h1]
      simp

theorem step_open_conf {m : Int} {k : TagKind} {l : Loc} {n : String}
    {a : List (String × String)}
    (hE : pyGet TAG_EXPECTED m = some (some n))
    (hS : pyGet TAG_SCHEME m = some (some k))
    (hc : conformsAttrs k.scheme a = true) :
    step ⟨m⟩ (.startElem l n a) =
      .ok (⟨m + 1⟩, [k.openCall (decodeArgs k.scheme a)]) := by
  simp [step, startElement, hE, hS, tagOpen_conf hc]
  all_goals rfl

theorem step_close {m : Int} {k : TagKind} {n : String}
    (hE : pyGet TAG_EXPECTED (m - 1) = some (some n))
    (hS : pyGet TAG_SCHEME (m - 1) = some (some k)) :
    step ⟨m⟩ (.endElem n) = .ok (⟨m - 1⟩, k.closeCall.toList) := by
  simp [step, endElement, hE, hS]

theorem run_children {α : Type} {m : Int} (f : α → List XmlEvent) (g : α → List SinkCall)
    (l : List α) (h : ∀ x ∈ l, runAcc ⟨m⟩ (f x) = ⟨g x, ⟨m⟩, none⟩) :
    runAcc ⟨m⟩ (l.flatMap f) = ⟨l.flatMap g, ⟨m⟩, none⟩ := by
  induction l with
  | nil => simp [runAcc]
  | cons x xs ih =>
    have hx := h x (List.mem_cons_self x xs)
    have hxs := ih (fun y hy => h y (List.mem_cons_of_mem x hy))
    rw [List.flatMap_cons, runAcc_append_ok _ hx, hxs]
    simp [List.flatMap_cons]

theorem run_selection {s : SelectionN} (h : s.conf = true) :
    runAcc ⟨4⟩ s.events = ⟨s.expTrace, ⟨4⟩, none⟩ := by
  have h1 : step ⟨(4 : Int)⟩ (.startElem loc0 "selection" s.attrs) =
      .ok (⟨5⟩, [.selection (decodeArgs selectionScheme s.attrs)]) := by
    simpa using step_open_conf (m := 4) (k := .selection) (l := loc0)
      (by decide) (by decide) h
  have h2 : step ⟨(5 : Int)⟩ (.endElem "selection") = .ok (⟨4⟩, []) := by
    simpa using step_close (m := 5) (k := .selection) (n := "selection")
      (by decide) (by decide)
  rw [SelectionN.events, runAcc_cons_ok _ h1, runAcc_cons_ok _ h2]
  simp [runAcc, SelectionN.expTrace]

theorem run_subEvent {se : SubEventN} (h : se.conf = true) :
    runAcc ⟨3⟩ se.events = ⟨se.expTrace, ⟨3⟩, none⟩ := by
  have hA : conformsAttrs subEventScheme se.attrs = true := by
    have := h; unfold SubEventN.conf at this; exact Bool.and_elim_left this
  have hsels : ∀ x ∈ se.sels, SelectionN.conf x = true := by
    have := h; unfold SubEventN.conf at this
    exact List.all_eq_true.mp (Bool.and_elim_right this)
  have h1 : step ⟨(3 : Int)⟩ (.startElem loc0 "subevent" se.attrs) =
      .ok (⟨4⟩, [.startSubEvent (decodeArgs subEventScheme se.attrs)]) := by
    simpa using step_open_conf (m := 3) (k := .subEvent) (l := loc0)
      (by decide) (by decide) hA
  have hch : runAcc ⟨4⟩ (se.sels.flatMap SelectionN.events) =
      ⟨se.sels.flatMap SelectionN.expTrace, ⟨4⟩, none⟩ :=
    run_children _ _ _ (fun x hx => run_selection (hsels x hx))
  have h2 : step ⟨(4 : Int)⟩ (.endElem "subevent") = .ok (⟨3⟩, [.endSubEvent]) := by
    simpa using step_close (m := 4) (k := .subEvent) (n := "subevent")
      (by decide) (by decide)
  rw [SubEventN.events, runAcc_cons_ok _ h1, runAcc_append_ok _ hch,
    runAcc_cons_ok _ h2]
  simp [runAcc, SubEventN.expTrace]

theorem run_event {e : EventN} (h : e.conf = true) :
    runAcc ⟨2⟩ e.events = ⟨e.expTrace, ⟨2⟩, none⟩ := by
  have hA : conformsAttrs eventScheme e.attrs = true := by
    have := h; unfold EventN.conf at this; exact Bool.and_elim_left this
  have hsubs : ∀ x ∈ e.subs, SubEventN.conf x = true := by
    have := h; unfold EventN.conf at this
    exact List.all_eq_true.mp (Bool.and_elim_right this)
  have h1 : step ⟨(2 : Int)⟩ (.startElem loc0 "event" e.attrs) =
      .ok (⟨3⟩, [.startEvent (decodeArgs eventScheme e.attrs)]) := by
    simpa using step_open_conf (m := 2) (k := .event) (l := loc0)
      (by decide) (by decide) hA
  have hch : runAcc ⟨3⟩ (e.subs.flatMap SubEventN.events) =
      ⟨e.subs.flatMap SubEventN.expTrace, ⟨3⟩, none⟩ :=
    run_children _ _ _ (fun x hx => run_subEvent (hsubs x hx))
  have h2 : step ⟨(3 : Int)⟩ (.endElem "event") = .ok (⟨2⟩, [.endEvent]) := by
    simpa using step_close (m := 3) (k := .event) (n := "event")
      (by decide) (by decide)
  rw [EventN.events, runAcc_cons_ok _ h1, runAcc_append_ok _ hch,
    runAcc_cons_ok _ h2]
  simp [runAcc, EventN.expTrace]

theorem run_betfair {b : BetfairN} (h : b.conf = true) :
    runAcc ⟨1⟩ b.events = ⟨b.expTrace, ⟨1⟩, none⟩ := by
  have hA : conformsAttrs betfairScheme b.attrs = true := by
    have := h; unfold BetfairN.conf at this; exact Bool.and_elim_left this
  have hevs : ∀ x ∈ b.evs, EventN.conf x = true := by
    have := h; unfold BetfairN.conf at this
    exact List.all_eq_true.mp (Bool.and_elim_right this)
  have h1 : step ⟨(1 : Int)⟩ (.startElem loc0 "betfair" b.attrs) =
      .ok (⟨2⟩, [.startBetfair (decodeArgs betfairScheme b.attrs)]) := by
    simpa using step_open_conf (m := 1) (k := .betfair) (l := loc0)
      (by decide) (by decide) hA
  have hch : runAcc ⟨2⟩ (b.evs.flatMap EventN.events) =
      ⟨b.evs.flatMap EventN.expTrace, ⟨2⟩, none⟩ :=
    run_children _ _ _ (fun x hx => run_event (hevs x hx))
  have h2 : step ⟨(2 : Int)⟩ (.endElem "betfair") = .ok (⟨1⟩, [.endBetfair]) := by
    simpa using step_close (m := 2) (k := .betfair) (n := "betfair")
      (by decide) (by decide)
  rw [BetfairN.events, runAcc_cons_ok _ h1, runAcc_append_ok _ hch,
    runAcc_cons_ok _ h2]
  simp [runAcc, BetfairN.expTrace]

/-! ### Claim theorems -/

/-- Claim C1, amended: for every document conforming to the four-level
grammar with valid attribute sets and decodable values, the run succeeds and
the sink callback sequence is exactly the document-order sequence containing
one open callback per element start — whose positional arguments are the
declared attributes in schema declaration order, coerced to their declared
types — and one close callback per element end of betfair, event and
subevent; a selection close event invokes no sink callback (its close hook is
a bare no-op lambda, not a sink method). -/
theorem c1_sink_correspondence (b : BetfairN) (h : b.conf = true) :
    runAcc ⟨0⟩ b.docEvents = ⟨b.expTrace, ⟨0⟩, none⟩ := by
  have h1 : step ⟨(0 : Int)⟩ XmlEvent.startDoc = .ok (⟨1⟩, []) := by decide
  have hb := run_betfair h
  have h2 : step ⟨(1 : Int)⟩ XmlEvent.endDoc = .ok (⟨0⟩, []) := by decide
  rw [BetfairN.docEvents, runAcc_cons_ok _ h1, runAcc_append_ok _ hb,
    runAcc_cons_ok _ h2]
  simp [runAcc]

/-- Claim C1, witness: a concrete conforming document satisfies the
correspondence theorem. -/
theorem c1_sink_correspondence_witness :
    docW.conf = true ∧ runAcc ⟨0⟩ docW.docEvents = ⟨docW.expTrace, ⟨0⟩, none⟩ :=
  ⟨by decide, c1_sink_correspondence docW (by decide)⟩

/-- Claim C1 as stated is false: on a conforming document with one selection
the run succeeds with 7 sink callback invocations, while there are 8 element
open/close events — the selection close event has no corresponding sink
callback, so the correspondence is not one-to-one over all open/close
events. -/
theorem c1_counterexample :
    (runAcc ⟨0⟩ docW.docEvents).err = none ∧
    (runAcc ⟨0⟩ docW.docEvents).trace.length = 7 ∧
    countElemEvents docW.docEvents = 8 :=
  ⟨by decide, by decide, by decide⟩

/-- Claim C2: an element-start event whose tag name differs from the expected
tag name at the current depth raises `UnExpectedTag` carrying the observed
name, the expected name and the locator position, and no sink callback is
invoked for that element or for anything after it. -/
theorem c2_unexpected_tag (loc : Loc) (st : HState) (name : String)
    (attrs : List (String × String)) (rest : List XmlEvent) (e : Option String)
    (hE : pyGet TAG_EXPECTED st.mode = some e) (hne : e ≠ some name) :
    runAcc st (.startElem loc name attrs :: rest) =
      ⟨[], st, some (.unexpectedTag loc name e)⟩ := by
  have hstep : step st (.startElem loc name attrs) =
      .error (.unexpectedTag loc name e) := by
    simp [step, startElement, hE, hne]
  simp [runAcc, hstep]

/-- Claim C2, witness: at depth 1 the expected tag is betfair, so opening a
tag named bad raises `UnExpectedTag` and nothing is forwarded to the sink. -/
theorem c2_unexpected_tag_witness :
    pyGet TAG_EXPECTED (1 : Int) = some (some "betfair") ∧
    (some "betfair" : Option String) ≠ some "bad" ∧
    runAcc ⟨1⟩ [.startElem loc0 "bad" []] =
      ⟨[], ⟨1⟩, some (.unexpectedTag loc0 "bad" (some "betfair"))⟩ :=
  ⟨by decide, by decide,
    c2_unexpected_tag loc0 ⟨1⟩ "bad" [] [] (some "betfair") (by decide) (by decide)⟩

/-- Claim C5, amended: an element-start event received while the handler is
inside a selection element (mode 5, or deeper) fails with a list
index-out-of-range error from `TAG_EXPECTED[self._mode]` — not with an
unexpected-tag problem — and invokes no sink callback. -/
theorem c5_overdeep_index_error (loc : Loc) (m : Int) (name : String)
    (attrs : List (String × String)) (h : 5 ≤ m) :
    startElement loc ⟨m⟩ name attrs = .error .indexError := by
  have hnone : pyGet TAG_EXPECTED m = none := by
    unfold pyGet
    rw [if_pos (by omega)]
    rw [List.get?_eq_none]
    show TAG_EXPECTED.length ≤ m.toNat
    have : TAG_EXPECTED.length = 5 := rfl
    omega
  simp [startElement, hnone]

/-- Claim C5, witness: the amended theorem applied at mode 5. -/
theorem c5_overdeep_index_error_witness :
    (5 : Int) ≤ 5 ∧ startElement loc0 ⟨5⟩ "x" [] = .error .indexError :=
  ⟨by decide, c5_overdeep_index_error loc0 5 "x" [] (by decide)⟩

/-- Claim C5 as stated is false: a concrete run that opens betfair, event,
subevent and selection reaches mode 5 without error, and an element-start
there raises the index error, not `UnExpectedTag` with expected none. -/
theorem c5_counterexample :
    (runAcc ⟨0⟩ openPrefixW).err = none ∧
    (runAcc ⟨0⟩ openPrefixW).state = ⟨5⟩ ∧
    startElement loc0 ⟨5⟩ "selection" selAttrsW = .error .indexError ∧
    startElement loc0 ⟨5⟩ "selection" selAttrsW ≠
      .error (.unexpectedTag loc0 "selection" none) :=
  ⟨by decide, by decide, by decide, by decide⟩

/-- Claim C8: `startDocument` succeeds exactly in the root state (mode 0) and
moves to mode 1, failing with an assertion error otherwise (in particular
when called twice without an intervening `endDocument`); `endDocument`
succeeds exactly at mode 1, resetting to the root state, and fails with an
assertion error otherwise. -/
theorem c8_document_protocol (m : Int) :
    startDocument ⟨m⟩ =
      (if m = 0 then .ok (⟨1⟩ : HState) else .error .assertionError) ∧
    endDocument ⟨m⟩ =
      (if m = 1 then .ok (⟨0⟩ : HState) else .error .assertionError) ∧
    runAcc ⟨0⟩ [.startDoc, .startDoc] = ⟨[], ⟨1⟩, some .assertionError⟩ ∧
    runAcc ⟨0⟩ [.startDoc, .endDoc, .startDoc, .endDoc] = ⟨[], ⟨0⟩, none⟩ ∧
    runAcc ⟨1⟩ [.endDoc, .endDoc] = ⟨[], ⟨0⟩, some .assertionError⟩ :=
  ⟨rfl, rfl, by decide, by decide, by decide⟩

/-- Claim C9: if an element-start event raises any error, the handler's depth
state is left unchanged — the mode is incremented only after the attribute
check, the coercions and the sink's open callback all succeed — and no sink
callback is recorded for that element or after it. -/
theorem c9_error_atomicity (loc : Loc) (st : HState) (name : String)
    (attrs : List (String × String)) (rest : List XmlEvent) (p : PError)
    (h : startElement loc st name attrs = .error p) :
    runAcc st (.startElem loc name attrs :: rest) = ⟨[], st, some p⟩ := by
  have hstep : step st (.startElem loc name attrs) = .error p := h
  simp [runAcc, hstep]

/-- Claim C9, witness: a betfair open with a missing attribute raises
`BrokenAttributes` and the state stays at mode 1. -/
theorem c9_error_atomicity_witness :
    startElement loc0 ⟨1⟩ "betfair" [] = .error (.brokenAttributes loc0 [] ["sport"]) ∧
    runAcc ⟨1⟩ [.startElem loc0 "betfair" []] =
      ⟨[], ⟨1⟩, some (.brokenAttributes loc0 [] ["sport"])⟩ :=
  ⟨by decide, c9_error_atomicity loc0 ⟨1⟩ "betfair" [] [] _ (by decide)⟩

theorem scheme_names_nodup (k : TagKind) : (k.scheme.map AttrScheme.name).Nodup := by
  cases k <;> decide

theorem containsKey_false_iff {attrs : List (String × String)} {n : String} :
    containsKey attrs n = false ↔ n ∉ attrKeys attrs := by
  rw [← containsKey_iff]
  cases containsKey attrs n <;> simp

theorem verifyNames_fail {l : Loc} {scheme : List AttrScheme}
    {attrs : List (String × String)}
    (hsn : (scheme.map AttrScheme.name).Nodup) (hkn : (attrKeys attrs).Nodup)
    (hdiff : ¬ ∀ x, x ∈ attrKeys attrs ↔ x ∈ scheme.map AttrScheme.name) :
    verifyNames l scheme attrs = .error (brokenReport l scheme attrs) := by
  unfold verifyNames
  by_cases hlen : scheme.length = attrs.length
  · rw [if_neg (fun hne => hne hlen)]
    have hex : ∃ a ∈ scheme, (!containsKey attrs a.name) = true := by
      by_contra hall
      push_neg at hall
      have hsub : (scheme.map AttrScheme.name) ⊆ attrKeys attrs := by
        intro n hn
        obtain ⟨a, ha, rfl⟩ := List.mem_map.mp hn
        have hc := hall a ha
        have hck : containsKey attrs a.name = true := by
          cases hcc : containsKey attrs a.name
          · exact absurd (by rw [hcc]; rfl) hc
          · rfl
        exact containsKey_iff.mp hck
      have hsp : List.Subperm (scheme.map AttrScheme.name) (attrKeys attrs) :=
        hsn.subperm hsub
      have hlk : (attrKeys attrs).length = attrs.length := by simp [attrKeys]
      have hlm : (scheme.map AttrScheme.name).length = scheme.length := by simp
      have hperm := hsp.perm_of_length_le (by omega)
      exact hdiff (fun x => hperm.symm.mem_iff)
    obtain ⟨a, ha, hca⟩ := hex
    cases hf : scheme.find? (fun a => !containsKey attrs a.name) with
    | none =>
      have hnone := List.find?_eq_none.mp hf a ha
      rw [hca] at hnone
      exact absurd rfl hnone
    | some b => rfl
  · rw [if_pos hlen]

/-- Claim C3: an element-start whose attribute name set is not exactly the
declared name set of the schema at the current depth raises
`BrokenAttributes` whose components are exactly the two set differences
(provided minus declared, declared minus provided), before any coercer runs
(the error is `BrokenAttributes` regardless of the attribute values), and no
sink callback is invoked for that element or after it. -/
theorem c3_broken_attributes (loc : Loc) (st : HState) (name : String)
    (attrs : List (String × String)) (k : TagKind) (rest : List XmlEvent)
    (hE : pyGet TAG_EXPECTED st.mode = some (some name))
    (hS : pyGet TAG_SCHEME st.mode = some (some k))
    (hkn : (attrKeys attrs).Nodup)
    (hdiff : ¬ ∀ x, x ∈ attrKeys attrs ↔ x ∈ k.scheme.map AttrScheme.name) :
    runAcc st (.startElem loc name attrs :: rest) =
      ⟨[], st, some (.brokenAttributes loc (unexpectedOf k.scheme attrs)
        (missedOf k.scheme attrs))⟩ ∧
    (∀ x, x ∈ unexpectedOf k.scheme attrs ↔
      x ∈ attrKeys attrs ∧ x ∉ k.scheme.map AttrScheme.name) ∧
    (∀ x, x ∈ missedOf k.scheme attrs ↔
      x ∈ k.scheme.map AttrScheme.name ∧ x ∉ attrKeys attrs) := by
  have hver := verifyNames_fail (l := loc) (scheme_names_nodup k) hkn hdiff
  have htag : tagOpen loc k.scheme attrs = .error (brokenReport loc k.scheme attrs) := by
    unfold tagOpen
    rw [hver]
    rfl
  have hstep : step st (.startElem loc name attrs) =
      .error (brokenReport loc k.scheme attrs) := by
    simp [step, startElement, hE, hS, htag]
    all_goals rfl
  refine ⟨by simp [runAcc, hstep, brokenReport], ?_, ?_⟩
  · intro x
    rw [unexpectedOf, List.mem_filter]
    simp
  · intro x
    rw [missedOf, List.mem_filter]
    simp [containsKey_false_iff]

/-- Claim C3, witness: a betfair element with attribute name bad instead of
sport raises `BrokenAttributes` with unexpected bad and missed sport. -/
theorem c3_broken_attributes_witness :
    (attrKeys [("bad", "v")]).Nodup ∧
    runAcc ⟨1⟩ [.startElem loc0 "betfair" [("bad", "v")]] =
      ⟨[], ⟨1⟩, some (.brokenAttributes loc0 ["bad"] ["sport"])⟩ :=
  ⟨by decide,
    (c3_broken_attributes loc0 ⟨1⟩ "betfair" [("bad", "v")] .betfair []
      (by decide) (by decide) (by decide)
      (fun hall => by
        have h1 := (hall "bad").mp (by decide)
        exact absurd h1 (by decide))).1⟩

theorem parseAll_append_err {loc : Loc} {attrs : List (String × String)}
    {pre l2 : List AttrScheme} {err : PError}
    (hpre : ∀ b ∈ pre, ∃ w x, getAttr attrs b.name = some w ∧ parseRaw b.ty w = some x)
    (he : parseAll loc l2 attrs = .error err) :
    parseAll loc (pre ++ l2) attrs = .error err := by
  induction pre with
  | nil => simpa using he
  | cons b pre ih =>
    obtain ⟨w, x, hw, hx⟩ := hpre b (List.mem_cons_self b pre)
    have hrec := ih (fun c hc => hpre c (List.mem_cons_of_mem b hc))
    have hrec2 : parseAll loc (pre.append l2) attrs = .error err := hrec
    rw [List.cons_append]
    simp only [parseAll, hw, attrParse, hx, hrec, hrec2]
    rfl

/-- Claim C4: when the attribute names match the schema but some value fails
its coercion, `Tag.open` raises `AttributeTypeError` carrying the attribute
name, the declared type name and the raw value (a structured problem, not the
underlying conversion exception) for the first failing attribute in schema
order — the attributes after it are arbitrary and their coercers never run —
and the sink's open callback for the element is not invoked. -/
theorem c4_attribute_type_error (loc : Loc) (st : HState) (name : String)
    (attrs : List (String × String)) (k : TagKind) (rest : List XmlEvent)
    (pre post : List AttrScheme) (a : AttrScheme) (v : String)
    (hk : k.scheme = pre ++ a :: post)
    (hE : pyGet TAG_EXPECTED st.mode = some (some name))
    (hS : pyGet TAG_SCHEME st.mode = some (some k))
    (hver : verifyNames loc k.scheme attrs = .ok ())
    (hpre : ∀ b ∈ pre, ∃ w x, getAttr attrs b.name = some w ∧ parseRaw b.ty w = some x)
    (hv : getAttr attrs a.name = some v)
    (hf : parseRaw a.ty v = none) :
    tagOpen loc k.scheme attrs =
      .error (.attributeTypeError loc a.name (typeNameOf a.ty) v) ∧
    runAcc st (.startElem loc name attrs :: rest) =
      ⟨[], st, some (.attributeTypeError loc a.name (typeNameOf a.ty) v)⟩ := by
  have hhead : parseAll loc (a :: post) attrs =
      .error (.attributeTypeError loc a.name (typeNameOf a.ty) v) := by
    simp only [parseAll, hv, attrParse, hf]
    rfl
  have htag : tagOpen loc k.scheme attrs =
      .error (.attributeTypeError loc a.name (typeNameOf a.ty) v) := by
    unfold tagOpen
    rw [hver, hk, parseAll_append_err hpre hhead]
    rfl
  have hstep : step st (.startElem loc name attrs) =
      .error (.attributeTypeError loc a.name (typeNameOf a.ty) v) := by
    simp [step, startElement, hE, hS, htag]
    all_goals rfl
  exact ⟨htag, by simp [runAcc, hstep]⟩

/-- Claim C4, witness: an event element whose date value is the string fail
raises `AttributeTypeError` for attribute date of declared type Date carrying
the raw value, after the earlier name attribute coerced successfully, and no
sink callback is recorded. -/
theorem c4_attribute_type_error_witness :
    TagKind.event.scheme = [⟨"name", AttrType.string⟩] ++ ⟨"date", AttrType.date⟩ :: [] ∧
    verifyNames loc0 TagKind.event.scheme [("name", "X"), ("date", "fail")] = .ok () ∧
    runAcc ⟨2⟩ [.startElem loc0 "event" [("name", "X"), ("date", "fail")]] =
      ⟨[], ⟨2⟩, some (.attributeTypeError loc0 "date" "Date" "fail")⟩ :=
  ⟨rfl, by decide,
    (c4_attribute_type_error loc0 ⟨2⟩ "event" [("name", "X"), ("date", "fail")] .event []
      [⟨"name", .string⟩] [] ⟨"date", .date⟩ "fail" rfl (by decide) (by decide)
      (by decide)
      (fun b hb => by
        rw [List.mem_singleton] at hb
        subst hb
        exact ⟨"X", .str "X", rfl, rfl⟩)
      (by decide) (by decide)).2⟩

/-- Claim C6, amended: the schema at depth 3 (subevent) declares exactly the
five attributes id (integer), title (string), date (date), time (time) and
TotalAmountMatched (integer, with a capital T) in that positional order, and
a subevent element carrying exactly these five names with decodable values is
accepted, with startSubEvent receiving the coerced values in this order. -/
theorem c6_subevent_schema (loc : Loc) (attrs : List (String × String))
    (h : conformsAttrs subEventScheme attrs = true) :
    subEventScheme.map AttrScheme.name =
      ["id", "title", "date", "time", "TotalAmountMatched"] ∧
    subEventScheme.map AttrScheme.ty =
      [.int, .string, .date, .time, .int] ∧
    startElement loc ⟨3⟩ "subevent" attrs =
      .ok (⟨4⟩, [.startSubEvent (decodeArgs subEventScheme attrs)]) := by
  refine ⟨rfl, rfl, ?_⟩
  have hs := step_open_conf (m := 3) (k := .subEvent) (l := loc) (n := "subevent")
    (by decide) (by decide) h
  simpa [step] using hs

/-- Claim C6, witness: the amended theorem applied to a conforming subevent
attribute map. -/
theorem c6_subevent_schema_witness :
    conformsAttrs subEventScheme subAttrsW = true ∧
    startElement loc0 ⟨3⟩ "subevent" subAttrsW =
      .ok (⟨4⟩, [.startSubEvent (decodeArgs subEventScheme subAttrsW)]) :=
  ⟨by decide, (c6_subevent_schema loc0 subAttrsW (by decide)).2.2⟩

/-- Claim C6 as stated is false: the fifth declared attribute is named
TotalAmountMatched, not totalAmountMatched, and a subevent element carrying
the five names of the claim (with the lowercase t) and decodable values is
rejected with `BrokenAttributes`, not accepted. -/
theorem c6_counterexample :
    subEventScheme.map AttrScheme.name ≠
      ["id", "title", "date", "time", "totalAmountMatched"] ∧
    tagOpen loc0 subEventScheme
      [("id", "1"), ("title", "T"), ("date", "13/09/2013"), ("time", "12:43"),
       ("totalAmountMatched", "100")] =
      .error (.brokenAttributes loc0 ["totalAmountMatched"] ["TotalAmountMatched"]) :=
  ⟨by decide, by decide⟩

/-- Claim C10: the money coercer accepts the non-numeric strings NaN and
Infinity, producing non-finite decimal values instead of raising
`AttributeTypeError`, so a selection element carrying such money values is
accepted and forwarded to the sink. -/
theorem c10_nonfinite_money :
    parseRaw .money "NaN" = some (.dec .nan) ∧
    parseRaw .money "Infinity" = some (.dec (.inf false)) ∧
    startElement loc0 ⟨4⟩ "selection" selAttrsNaN =
      .ok (⟨5⟩, [.selection ([.int 1, .str "S", .dec .nan] ++
        List.replicate 11 (.dec (.inf false)))]) :=
  ⟨by decide, by decide, by decide⟩

/-- Claim C7: the money coercer parses with exact decimal arithmetic: the
string 123.54 parses to the rational exactly equal to 123.54 (6177/50), the
string 0.01 to 1/100, and adding the two parsed values yields exactly the
parsed value of 123.55 (2471/20) — no binary rounding error. -/
theorem c7_money_exact :
    parseRaw .money "123.54" = some (.dec (.finite (6177 / 50 : Rat))) ∧
    parseRaw .money "0.01" = some (.dec (.finite (1 / 100 : Rat))) ∧
    parseRaw .money "123.55" = some (.dec (.finite (2471 / 20 : Rat))) ∧
    decAddFin (.finite (6177 / 50 : Rat)) (.finite (1 / 100 : Rat)) =
      some (.finite (2471 / 20 : Rat)) ∧
    (6177 / 50 : Rat) = 123 + 54 / 100 := by
  have e1 : parseRaw .money "123.54" =
      some (.dec (decValOf false ['1', '2', '3'] ['5', '4'] 0)) := rfl
  have v1 : decValOf false ['1', '2', '3'] ['5', '4'] 0 = .finite (6177 / 50 : Rat) := by
    have hm : digitsToNat (['1', '2', '3'] ++ ['5', '4']) = 12354 := by decide
    simp only [decValOf, hm]
    norm_num
    rw [show Int.toNat 2 = 2 from rfl]
    norm_num
  have e2 : parseRaw .money "0.01" =
      some (.dec (decValOf false ['0'] ['0', '1'] 0)) := rfl
  have v2 : decValOf false ['0'] ['0', '1'] 0 = .finite (1 / 100 : Rat) := by
    have hm : digitsToNat (['0'] ++ ['0', '1']) = 1 := by decide
    simp only [decValOf, hm]
    norm_num
    rw [show Int.toNat 2 = 2 from rfl]
    norm_num
  have e3 : parseRaw .money "123.55" =
      some (.dec (decValOf false ['1', '2', '3'] ['5', '5'] 0)) := rfl
  have v3 : decValOf false ['1', '2', '3'] ['5', '5'] 0 = .finite (2471 / 20 : Rat) := by
    have hm : digitsToNat (['1', '2', '3'] ++ ['5', '5']) = 12355 := by decide
    simp only [decValOf, hm]
    norm_num
    rw [show Int.toNat 2 = 2 from rfl]
    norm_num
  refine ⟨by rw [e1, v1], by rw [e2, v2], by rw [e3, v3], ?_, by norm_num⟩
  simp only [decAddFin]
  norm_num
